import Mathlib

/-!
Verification of the MangaParty core against its specification.

The embedding models the PostgreSQL schema (`mangaparty_schema.sql`), the
sqlc query set (`sql/query.sql`, `query.sql`) and the transactional Go
handlers (`handleCreatePerson`, `handleCreateWork`, `handleGetPerson`) as
pure functions over an explicit relational state.  Identifiers are modelled
as naturals drawn from a fresh-id counter (standing for `uuid_generate_v4`),
timestamps as a logical clock (standing for `now()`), and each table as a
list of row records.  Fallible SQL statements return `Except`.
-/

namespace MangaParty

/-- The closed enumeration `mp_entity_type` from the schema. -/
inductive MpEntityType
  | res | work | expression | manifestation | item
  | agent | person | collective_agent
  | nomen | place | time_span
  | language | content_rating | type | status | tag
  | digital_resource | image | link | rss_feed | file
deriving DecidableEq, Repr

/-- The closed enumeration `mp_relationship_type` from the schema. -/
inductive MpRelationshipType
  | MP_R1 | MP_R2 | MP_R3 | MP_R4 | MP_R5 | MP_R6 | MP_R7 | MP_R8 | MP_R9 | MP_R10
  | MP_R11 | MP_R12 | MP_R13 | MP_R14 | MP_R15 | MP_R16 | MP_R17 | MP_R18 | MP_R19 | MP_R20
  | MP_R21 | MP_R22 | MP_R23 | MP_R24 | MP_R25 | MP_R26 | MP_R27 | MP_R28 | MP_R29 | MP_R30
  | MP_R31 | MP_R32 | MP_R33 | MP_R34 | MP_R35 | MP_R36 | MP_R37 | MP_R38 | MP_R39 | MP_R40
deriving DecidableEq, Repr

/-- Parent of each entity kind in the class-table-inheritance hierarchy,
read off the `REFERENCES` chain of the layer tables: `mp_person` and
`mp_collective_agent` reference `mp_agent`; `mp_image`, `mp_link`,
`mp_rss_feed`, `mp_file` reference `mp_digital_resource`; every other layer
table references `mp_res` directly; `mp_res` is the root. -/
def parentKind : MpEntityType → Option MpEntityType
  | .res => none
  | .person => some .agent
  | .collective_agent => some .agent
  | .image => some .digital_resource
  | .link => some .digital_resource
  | .rss_feed => some .digital_resource
  | .file => some .digital_resource
  | _ => some .res

/-- Kind subsumption along the inheritance chain (depth at most two in the
schema): a `person` row is an `agent` and a `res`. -/
def kindIsA (k t : MpEntityType) : Bool :=
  k == t ||
    match parentKind k with
    | none => false
    | some p =>
      p == t ||
        match parentKind p with
        | none => false
        | some q => q == t

/-- Modelled from the spec: the Type Registry's `allowedEndpointKinds`.
No registry exists in the repository's source; the table below transcribes
the documented semantics of each `mp_relationship_type` value from the
schema's enum comments (e.g. `MP_R5 -- Work was created by Agent`). -/
def allowedEndpointKinds : MpRelationshipType → MpEntityType × MpEntityType
  | .MP_R1 => (.res, .res)
  | .MP_R2 => (.work, .expression)
  | .MP_R3 => (.expression, .manifestation)
  | .MP_R4 => (.manifestation, .item)
  | .MP_R5 => (.work, .agent)
  | .MP_R6 => (.expression, .agent)
  | .MP_R7 => (.manifestation, .agent)
  | .MP_R8 => (.manifestation, .agent)
  | .MP_R9 => (.manifestation, .agent)
  | .MP_R10 => (.item, .agent)
  | .MP_R11 => (.item, .agent)
  | .MP_R12 => (.work, .res)
  | .MP_R13 => (.res, .nomen)
  | .MP_R14 => (.agent, .nomen)
  | .MP_R15 => (.nomen, .nomen)
  | .MP_R16 => (.nomen, .nomen)
  | .MP_R17 => (.nomen, .nomen)
  | .MP_R18 => (.work, .work)
  | .MP_R19 => (.work, .work)
  | .MP_R20 => (.work, .work)
  | .MP_R21 => (.work, .work)
  | .MP_R22 => (.work, .work)
  | .MP_R23 => (.expression, .expression)
  | .MP_R24 => (.expression, .expression)
  | .MP_R25 => (.expression, .expression)
  | .MP_R26 => (.manifestation, .manifestation)
  | .MP_R27 => (.manifestation, .manifestation)
  | .MP_R28 => (.item, .manifestation)
  | .MP_R29 => (.manifestation, .manifestation)
  | .MP_R30 => (.agent, .collective_agent)
  | .MP_R31 => (.collective_agent, .collective_agent)
  | .MP_R32 => (.collective_agent, .collective_agent)
  | .MP_R33 => (.res, .place)
  | .MP_R34 => (.place, .place)
  | .MP_R35 => (.res, .time_span)
  | .MP_R36 => (.time_span, .time_span)
  | .MP_R37 => (.res, .tag)
  | .MP_R38 => (.res, .digital_resource)
  | .MP_R39 => (.res, .language)
  | .MP_R40 => (.res, .content_rating)

/-- A row of `mp_res`: id, discriminator, multivalued note, `created_at`
(defaulted to `now()` on insert), nullable `updated_at`. -/
structure MpResRow where
  id : Nat
  entity_type : MpEntityType
  note : List String
  created_at : Nat
  updated_at : Option Nat
deriving DecidableEq, Repr

/-- A row of `mp_agent` (id references `mp_res`). -/
structure MpAgentRow where
  id : Nat
  contact_info : List String
  field_of_activity : List String
  language : List String
deriving DecidableEq, Repr

/-- A row of `mp_person` (id references `mp_agent`). -/
structure MpPersonRow where
  id : Nat
  profession : List String
deriving DecidableEq, Repr

/-- A row of `mp_work` (id references `mp_res`); `representative_attributes`
is JSONB, kept opaque. -/
structure MpWorkRow where
  id : Nat
  category : List String
  representative_attributes : Option String
deriving DecidableEq, Repr

/-- A row of `mp_relationship`: own id, two NOT NULL references into
`mp_res`, the closed-enumeration discriminator, optional validity interval
and note. -/
structure MpRelationshipRow where
  id : Nat
  source_id : Nat
  target_id : Nat
  rel_type : MpRelationshipType
  start_date : Option Nat
  end_date : Option Nat
  note : Option String
deriving DecidableEq, Repr

/-- The database state: the tables the verified operations touch, a fresh
identifier counter (standing for `uuid_generate_v4()`) and a logical clock
(standing for `now()`). -/
structure DBState where
  nextId : Nat
  clock : Nat
  mp_res : List MpResRow
  mp_agent : List MpAgentRow
  mp_person : List MpPersonRow
  mp_work : List MpWorkRow
  mp_relationship : List MpRelationshipRow
deriving DecidableEq, Repr

/-- The empty database, as right after running the schema file. -/
def initialState : DBState :=
  { nextId := 0, clock := 0, mp_res := [], mp_agent := [], mp_person := [],
    mp_work := [], mp_relationship := [] }

/-- Error taxonomy: constraint violations raised by the storage layer plus
the validation failures of the spec's §7 taxonomy. -/
inductive StoreError
  | pkViolation
  | fkViolation
  | endpointNotFound
  | typeMismatch
  | notFound
deriving DecidableEq, Repr

/-- Primary-key lookup in `mp_res`. -/
def resFind (i : Nat) (s : DBState) : Option MpResRow :=
  s.mp_res.find? (fun r => r.id == i)

/-- Primary-key lookup in `mp_agent`. -/
def agentFind (i : Nat) (s : DBState) : Option MpAgentRow :=
  s.mp_agent.find? (fun a => a.id == i)

/-- Primary-key lookup in `mp_person`. -/
def personFind (i : Nat) (s : DBState) : Option MpPersonRow :=
  s.mp_person.find? (fun p => p.id == i)

/-- Primary-key lookup in `mp_work`. -/
def workFind (i : Nat) (s : DBState) : Option MpWorkRow :=
  s.mp_work.find? (fun w0 => w0.id == i)

/-- Does a `mp_res` row with this id exist (the check behind every
`REFERENCES mp_res(id)` constraint)? -/
def resExists (i : Nat) (s : DBState) : Bool :=
  s.mp_res.any (fun r => r.id == i)

/-- `CreateRes` (sql/query.sql): `INSERT INTO mp_res (entity_type, note)
VALUES ($1, $2) RETURNING id, created_at`.  The id is generated fresh,
`created_at` defaults to `now()`, `updated_at` stays NULL.  Fails only on a
primary-key collision. -/
def createRes (et : MpEntityType) (note : List String) (s : DBState) :
    Except StoreError ((Nat × Nat) × DBState) :=
  if s.mp_res.any (fun r => r.id == s.nextId) then
    .error .pkViolation
  else
    .ok ((s.nextId, s.clock),
      { s with
        mp_res := ⟨s.nextId, et, note, s.clock, none⟩ :: s.mp_res
        nextId := s.nextId + 1 })

/-- `CreateAgent` (sql/query.sql): `INSERT INTO mp_agent (id, contact_info,
field_of_activity, language) VALUES ($1, $2, $3, $4)`.  Enforces the
primary key and the foreign key into `mp_res`. -/
def createAgent (i : Nat) (contact activity lang : List String) (s : DBState) :
    Except StoreError DBState :=
  if s.mp_agent.any (fun a => a.id == i) then
    .error .pkViolation
  else if !resExists i s then
    .error .fkViolation
  else
    .ok { s with mp_agent := ⟨i, contact, activity, lang⟩ :: s.mp_agent }

/-- `CreatePerson` (sql/query.sql): `INSERT INTO mp_person (id, profession)
VALUES ($1, $2)`.  Enforces the primary key and the foreign key into
`mp_agent`. -/
def createPerson (i : Nat) (profession : List String) (s : DBState) :
    Except StoreError DBState :=
  if s.mp_person.any (fun p => p.id == i) then
    .error .pkViolation
  else if !s.mp_agent.any (fun a => a.id == i) then
    .error .fkViolation
  else
    .ok { s with mp_person := ⟨i, profession⟩ :: s.mp_person }

/-- `CreateWork` (sql/query.sql): `INSERT INTO mp_work (id, category,
representative_attributes) VALUES ($1, $2, $3)`.  Enforces the primary key
and the foreign key into `mp_res`. -/
def createWork (i : Nat) (category : List String) (repr0 : Option String)
    (s : DBState) : Except StoreError DBState :=
  if s.mp_work.any (fun w0 => w0.id == i) then
    .error .pkViolation
  else if !resExists i s then
    .error .fkViolation
  else
    .ok { s with mp_work := ⟨i, category, repr0⟩ :: s.mp_work }

/-- The JSON payload of `POST /api/person` (`CreatePersonRequest`). -/
structure CreatePersonRequest where
  note : List String
  contact_info : List String
  field_of_activity : List String
  language : List String
  profession : List String
deriving DecidableEq, Repr

/-- The JSON payload of `POST /api/work` (`CreateWorkRequest`). -/
structure CreateWorkRequest where
  note : List String
  category : List String
  representative_attributes : Option String
deriving DecidableEq, Repr

/-- The body of `handleCreatePerson`'s transaction: insert into `mp_res`
with discriminator `person`, then into `mp_agent`, then into `mp_person`,
each using the identity returned by the root insert. -/
def createPersonTxBody (req : CreatePersonRequest) (s : DBState) :
    Except StoreError (Nat × DBState) := do
  let ((i, _), s1) ← createRes .person req.note s
  let s2 ← createAgent i req.contact_info req.field_of_activity req.language s1
  let s3 ← createPerson i req.profession s2
  .ok (i, s3)

/-- `handleCreatePerson` (main.go): run the three inserts inside one
transaction; commit on success, roll the whole transaction back on any
failure (the deferred `tx.Rollback`). -/
def handleCreatePerson (req : CreatePersonRequest) (s : DBState) :
    Except StoreError Nat × DBState :=
  match createPersonTxBody req s with
  | .ok (i, s') => (.ok i, s')
  | .error e => (.error e, s)

/-- The body of `handleCreateWork`'s transaction: insert into `mp_res` with
discriminator `work`, then into `mp_work`. -/
def createWorkTxBody (req : CreateWorkRequest) (s : DBState) :
    Except StoreError (Nat × DBState) := do
  let ((i, _), s1) ← createRes .work req.note s
  let s2 ← createWork i req.category req.representative_attributes s1
  .ok (i, s2)

/-- `handleCreateWork` (main.go): the two inserts inside one transaction,
with rollback on failure. -/
def handleCreateWork (req : CreateWorkRequest) (s : DBState) :
    Except StoreError Nat × DBState :=
  match createWorkTxBody req s with
  | .ok (i, s') => (.ok i, s')
  | .error e => (.error e, s)

/-- The row shape returned by `GetPerson` / `ListPeople`: the three-way
join of `mp_res`, `mp_agent` and `mp_person`. -/
structure PersonRecord where
  id : Nat
  entity_type : MpEntityType
  note : List String
  created_at : Nat
  updated_at : Option Nat
  contact_info : List String
  field_of_activity : List String
  language : List String
  profession : List String
deriving DecidableEq, Repr

/-- The row shape returned by `GetWork` / `ListWorks` (the query selects no
`updated_at` column). -/
structure WorkRecord where
  id : Nat
  entity_type : MpEntityType
  note : List String
  created_at : Nat
  category : List String
  representative_attributes : Option String
deriving DecidableEq, Repr

/-- `GetPerson` (sql/query.sql): `SELECT ... FROM mp_res r JOIN mp_agent a
ON r.id = a.id JOIN mp_person p ON a.id = p.id WHERE r.id = $1`.  The inner
joins produce a row exactly when all three tables hold the id. -/
def getPerson (i : Nat) (s : DBState) : Option PersonRecord := do
  let r ← resFind i s
  let a ← agentFind i s
  let p ← personFind i s
  pure ⟨r.id, r.entity_type, r.note, r.created_at, r.updated_at,
    a.contact_info, a.field_of_activity, a.language, p.profession⟩

/-- The HTTP-visible outcome of `handleGetPerson`: a hydrated record or the
404 branch.  (The handler has no further failure distinction.) -/
inductive GetPersonResult
  | ok (p : PersonRecord)
  | notFound
deriving DecidableEq, Repr

/-- `handleGetPerson` (main.go): run `GetPerson`; the pgx "no rows in
result set" error — raised whenever the join is empty — is mapped to the
404 "Person not found" response. -/
def handleGetPerson (i : Nat) (s : DBState) : GetPersonResult :=
  match getPerson i s with
  | some p => .ok p
  | none => .notFound

/-- `GetWork` (sql/query.sql): the two-way join of `mp_res` and `mp_work`
at the given id. -/
def getWork (i : Nat) (s : DBState) : Option WorkRecord := do
  let r ← resFind i s
  let w0 ← workFind i s
  pure ⟨r.id, r.entity_type, r.note, r.created_at, w0.category,
    w0.representative_attributes⟩

/-- The unsorted three-way join behind `ListPeople`, driven by the order of
the `mp_res` table (the SQL leaves pre-`ORDER BY` row order unspecified;
the table order stands for that freedom). -/
def joinPeople (s : DBState) : List PersonRecord :=
  s.mp_res.filterMap (fun r => do
    let a ← agentFind r.id s
    let p ← personFind r.id s
    pure ⟨r.id, r.entity_type, r.note, r.created_at, r.updated_at,
      a.contact_info, a.field_of_activity, a.language, p.profession⟩)

/-- The unsorted two-way join behind `ListWorks`. -/
def joinWorks (s : DBState) : List WorkRecord :=
  s.mp_res.filterMap (fun r => do
    let w0 ← workFind r.id s
    pure ⟨r.id, r.entity_type, r.note, r.created_at, w0.category,
      w0.representative_attributes⟩)

/-- `ORDER BY r.created_at DESC` on person rows: newer first; equal
timestamps are left in underlying row order (the SQL specifies no
tie-break). -/
def createdDescP (a b : PersonRecord) : Prop :=
  b.created_at ≤ a.created_at

instance : DecidableRel createdDescP := fun a b =>
  inferInstanceAs (Decidable (b.created_at ≤ a.created_at))

instance : IsTotal PersonRecord createdDescP :=
  ⟨fun a b => (Nat.le_total b.created_at a.created_at).elim Or.inl Or.inr⟩

instance : IsTrans PersonRecord createdDescP :=
  ⟨fun _ _ _ hab hbc => Nat.le_trans hbc hab⟩

/-- `ORDER BY r.created_at DESC` on work rows. -/
def createdDescW (a b : WorkRecord) : Prop :=
  b.created_at ≤ a.created_at

instance : DecidableRel createdDescW := fun a b =>
  inferInstanceAs (Decidable (b.created_at ≤ a.created_at))

instance : IsTotal WorkRecord createdDescW :=
  ⟨fun a b => (Nat.le_total b.created_at a.created_at).elim Or.inl Or.inr⟩

instance : IsTrans WorkRecord createdDescW :=
  ⟨fun _ _ _ hab hbc => Nat.le_trans hbc hab⟩

/-- `ListPeople` (sql/query.sql): the full three-way join, `ORDER BY
r.created_at DESC`.  There is no LIMIT, no OFFSET and no cursor
parameter. -/
def listPeople (s : DBState) : List PersonRecord :=
  (joinPeople s).insertionSort createdDescP

/-- `ListWorks` (sql/query.sql): the full two-way join, `ORDER BY
r.created_at DESC`; no pagination. -/
def listWorks (s : DBState) : List WorkRecord :=
  (joinWorks s).insertionSort createdDescW

/-- `CreateRelationship` (sql/query.sql): `INSERT INTO mp_relationship
(source_id, target_id, rel_type, note) VALUES ($1, $2, $3, $4) RETURNING
id`.  The edge id is generated fresh; the two NOT NULL `REFERENCES
mp_res(id)` constraints make the insert fail when either endpoint lacks a
root row; the statement performs no endpoint-kind check of any sort. -/
def sqlCreateRelationship (src tgt : Nat) (relType : MpRelationshipType)
    (note : Option String) (s : DBState) : Except StoreError (Nat × DBState) :=
  if s.mp_relationship.any (fun e => e.id == s.nextId) then
    .error .pkViolation
  else if !resExists src s || !resExists tgt s then
    .error .fkViolation
  else
    .ok (s.nextId,
      { s with
        mp_relationship :=
          ⟨s.nextId, src, tgt, relType, none, none, note⟩ :: s.mp_relationship
        nextId := s.nextId + 1 })

/-- Modelled from the spec: the Relationship Graph's `CreateRelationship`
operation.  No Go handler for relationships exists in the repository —
only the raw insert above — so the validating component of §4.3 is
modelled from the spec's words: resolve each endpoint's concrete kind via
the root table (`EndpointNotFound` if absent), look up
`allowedEndpointKinds(relType)`, fail `TypeMismatch` when the resolved
kinds are not compatible with the permitted pair (compatibility is along
the inheritance chain, as in the spec's §8 scenario where a `person`
endpoint satisfies a permitted `agent` kind), and only then run the
insert.  On any failure the state is unchanged (one atomic unit of
work). -/
def createRelationship (src tgt : Nat) (relType : MpRelationshipType)
    (note : Option String) (s : DBState) : Except StoreError Nat × DBState :=
  match resFind src s, resFind tgt s with
  | none, _ => (.error .endpointNotFound, s)
  | some _, none => (.error .endpointNotFound, s)
  | some rowS, some rowT =>
    if kindIsA rowS.entity_type (allowedEndpointKinds relType).1 &&
        kindIsA rowT.entity_type (allowedEndpointKinds relType).2 then
      match sqlCreateRelationship src tgt relType note s with
      | .ok (i, s') => (.ok i, s')
      | .error e => (.error e, s)
    else
      (.error .typeMismatch, s)

/-- Modelled from the spec: `DeleteRelationship(id)` — remove the edge,
failing `NotFound` if already absent.  There is no delete query in the
repository's source. -/
def deleteRelationship (i : Nat) (s : DBState) : Except StoreError Unit × DBState :=
  if s.mp_relationship.any (fun e => e.id == i) then
    (.ok (),
      { s with mp_relationship := s.mp_relationship.filter (fun e => e.id != i) })
  else
    (.error .notFound, s)

/-- Modelled from the spec: `DeleteEntity(id)` — `DELETE FROM mp_res WHERE
id = $1`.  No delete query exists in the repository's source; the effect is
fully determined by the schema's `ON DELETE CASCADE` declarations:
removing the `mp_res` row removes the `mp_agent` and `mp_work` rows keyed
by the same id (their keys reference `mp_res`), removing an `mp_agent` row
removes the `mp_person` rows referencing it, and every `mp_relationship`
row whose `source_id` or `target_id` is the deleted id is removed. -/
def deleteEntity (i : Nat) (s : DBState) : DBState :=
  let removedAgentIds := (s.mp_agent.filter (fun a => a.id == i)).map (·.id)
  { s with
    mp_res := s.mp_res.filter (fun r => r.id != i)
    mp_agent := s.mp_agent.filter (fun a => a.id != i)
    mp_person := s.mp_person.filter (fun p => !removedAgentIds.contains p.id)
    mp_work := s.mp_work.filter (fun w0 => w0.id != i)
    mp_relationship :=
      s.mp_relationship.filter (fun e => e.source_id != i && e.target_id != i) }

/-- Traversal direction of the spec's `Traverse`. -/
inductive Direction
  | outbound
  | inbound
deriving DecidableEq, Repr

/-- Modelled from the spec: `Traverse(anchorId, relType, direction)` —
outbound returns the targets of edges whose source is the anchor, inbound
the sources of edges whose target is the anchor, filtered by `relType`
(the indexed scan of `mp_relationship` that `GetWorksByCreator`
demonstrates, generalised per §4.3). -/
def traverse (anchor : Nat) (relType : MpRelationshipType) (d : Direction)
    (s : DBState) : List Nat :=
  match d with
  | .outbound =>
    (s.mp_relationship.filter
      (fun e => e.source_id == anchor && e.rel_type == relType)).map (·.target_id)
  | .inbound =>
    (s.mp_relationship.filter
      (fun e => e.target_id == anchor && e.rel_type == relType)).map (·.source_id)

/-- Modelled from the spec: an attribute mutation on `mp_res` (`UPDATE
mp_res SET note = $2 WHERE id = $1`).  No update query exists in the
repository's source (the spec's §9 flags this); the `updated_at` effect is
the schema's `update_mp_res_modtime` trigger, which fires BEFORE UPDATE on
each updated row and sets `updated_at = now()`. -/
def updateResNote (i : Nat) (newNote : List String) (s : DBState) : DBState :=
  { s with
    mp_res := s.mp_res.map (fun r =>
      if r.id == i then { r with note := newNote, updated_at := some s.clock } else r) }

/-- `GetWorksByCreator` (sql/query.sql): `FROM mp_relationship rel JOIN
mp_res r ON rel.source_id = r.id JOIN mp_work w ON r.id = w.id WHERE
rel.target_id = $1 AND rel.rel_type = 'MP_R5'`.  An edge whose source has
no `mp_work` row simply produces no join row. -/
def getWorksByCreator (agentId : Nat) (s : DBState) : List WorkRecord :=
  s.mp_relationship.filterMap (fun e =>
    if e.target_id == agentId && e.rel_type == MpRelationshipType.MP_R5 then do
      let r ← resFind e.source_id s
      let w0 ← workFind e.source_id s
      pure ⟨r.id, r.entity_type, r.note, r.created_at, w0.category,
        w0.representative_attributes⟩
    else none)

/-- The states reachable from the empty database through the modelled
operations. -/
inductive Reachable : DBState → Prop
  | init : Reachable initialState
  | createPersonStep (req : CreatePersonRequest) (s : DBState) :
      Reachable s → Reachable (handleCreatePerson req s).2
  | createWorkStep (req : CreateWorkRequest) (s : DBState) :
      Reachable s → Reachable (handleCreateWork req s).2
  | createRelStep (a b : Nat) (relType : MpRelationshipType)
      (note : Option String) (s : DBState) :
      Reachable s → Reachable (createRelationship a b relType note s).2
  | deleteEntityStep (i : Nat) (s : DBState) :
      Reachable s → Reachable (deleteEntity i s)
  | deleteRelStep (i : Nat) (s : DBState) :
      Reachable s → Reachable (deleteRelationship i s).2
  | updateNoteStep (i : Nat) (nt : List String) (s : DBState) :
      Reachable s → Reachable (updateResNote i nt s)

/-- Invariant I3: every edge references existing root rows at both
endpoints. -/
def edgesValid (s : DBState) : Prop :=
  ∀ e ∈ s.mp_relationship,
    resExists e.source_id s = true ∧ resExists e.target_id s = true

/-! ### Helper lemmas -/

/-- The state produced by a successful `handleCreatePerson` transaction. -/
def personInsertedState (req : CreatePersonRequest) (s : DBState) : DBState :=
  { s with
    nextId := s.nextId + 1
    mp_res := ⟨s.nextId, .person, req.note, s.clock, none⟩ :: s.mp_res
    mp_agent :=
      ⟨s.nextId, req.contact_info, req.field_of_activity, req.language⟩ :: s.mp_agent
    mp_person := ⟨s.nextId, req.profession⟩ :: s.mp_person }

/-- The state produced by a successful `handleCreateWork` transaction. -/
def workInsertedState (req : CreateWorkRequest) (s : DBState) : DBState :=
  { s with
    nextId := s.nextId + 1
    mp_res := ⟨s.nextId, .work, req.note, s.clock, none⟩ :: s.mp_res
    mp_work := ⟨s.nextId, req.category, req.representative_attributes⟩ :: s.mp_work }

theorem handleCreatePerson_ok_inv (req : CreatePersonRequest) (s : DBState)
    (i : Nat) (s' : DBState) (h : handleCreatePerson req s = (.ok i, s')) :
    i = s.nextId ∧ s' = personInsertedState req s := by
  by_cases h1 : s.mp_res.any (fun r => r.id == s.nextId) = true
  · simp [handleCreatePerson, createPersonTxBody, createRes, h1, bind,
      Except.bind] at h
  · by_cases h2 : s.mp_agent.any (fun a => a.id == s.nextId) = true
    · simp [handleCreatePerson, createPersonTxBody, createRes, createAgent,
        resExists, h1, h2, bind, Except.bind] at h
    · by_cases h3 : s.mp_person.any (fun p => p.id == s.nextId) = true
      · simp [handleCreatePerson, createPersonTxBody, createRes, createAgent,
          createPerson, resExists, h1, h2, h3, bind, Except.bind] at h
      · simp [handleCreatePerson, createPersonTxBody, createRes, createAgent,
          createPerson, resExists, h1, h2, h3, bind, Except.bind,
          personInsertedState] at h
        exact ⟨h.1.symm, h.2.symm⟩

theorem handleCreatePerson_error_frame (req : CreatePersonRequest) (s : DBState)
    (e : StoreError) (h : (handleCreatePerson req s).1 = .error e) :
    (handleCreatePerson req s).2 = s := by
  cases hb : createPersonTxBody req s with
  | ok v => simp [handleCreatePerson, hb] at h
  | error e' => simp [handleCreatePerson, hb]

theorem handleCreatePerson_fresh_ok (req : CreatePersonRequest) (s : DBState)
    (h1 : s.mp_res.any (fun r => r.id == s.nextId) = false)
    (h2 : s.mp_agent.any (fun a => a.id == s.nextId) = false)
    (h3 : s.mp_person.any (fun p => p.id == s.nextId) = false) :
    handleCreatePerson req s = (.ok s.nextId, personInsertedState req s) := by
  simp [handleCreatePerson, createPersonTxBody, createRes, createAgent,
    createPerson, resExists, h1, h2, h3, bind, Except.bind, personInsertedState]

theorem handleCreateWork_ok_inv (req : CreateWorkRequest) (s : DBState)
    (i : Nat) (s' : DBState) (h : handleCreateWork req s = (.ok i, s')) :
    i = s.nextId ∧ s' = workInsertedState req s := by
  by_cases h1 : s.mp_res.any (fun r => r.id == s.nextId) = true
  · simp [handleCreateWork, createWorkTxBody, createRes, h1, bind,
      Except.bind] at h
  · by_cases h2 : s.mp_work.any (fun w0 => w0.id == s.nextId) = true
    · simp [handleCreateWork, createWorkTxBody, createRes, createWork,
        resExists, h1, h2, bind, Except.bind] at h
    · simp [handleCreateWork, createWorkTxBody, createRes, createWork,
        resExists, h1, h2, bind, Except.bind, workInsertedState] at h
      exact ⟨h.1.symm, h.2.symm⟩

theorem handleCreateWork_error_frame (req : CreateWorkRequest) (s : DBState)
    (e : StoreError) (h : (handleCreateWork req s).1 = .error e) :
    (handleCreateWork req s).2 = s := by
  cases hb : createWorkTxBody req s with
  | ok v => simp [handleCreateWork, hb] at h
  | error e' => simp [handleCreateWork, hb]

theorem handleCreateWork_fresh_ok (req : CreateWorkRequest) (s : DBState)
    (h1 : s.mp_res.any (fun r => r.id == s.nextId) = false)
    (h2 : s.mp_work.any (fun w0 => w0.id == s.nextId) = false) :
    handleCreateWork req s = (.ok s.nextId, workInsertedState req s) := by
  simp [handleCreateWork, createWorkTxBody, createRes, createWork,
    resExists, h1, h2, bind, Except.bind, workInsertedState]

/-! ### C2 — atomic multi-layer person creation -/

/-- C2: `handleCreatePerson` is atomic across the inheritance chain: on
success the generated identity comes from the root insert and the
`mp_res`, `mp_agent` and `mp_person` rows — keyed by that one identity, in
parent-to-child order — appear together as the transaction's single
effect; on any failure the state is exactly the pre-state (the root insert
is rolled back too), so a Resource without its layers is never
observable. -/
theorem C2_create_person_atomic (req : CreatePersonRequest) (s : DBState) :
    (∀ i s', handleCreatePerson req s = (.ok i, s') →
      i = s.nextId ∧
      s' = { s with
        nextId := s.nextId + 1
        mp_res := ⟨s.nextId, .person, req.note, s.clock, none⟩ :: s.mp_res
        mp_agent :=
          ⟨s.nextId, req.contact_info, req.field_of_activity, req.language⟩ ::
            s.mp_agent
        mp_person := ⟨s.nextId, req.profession⟩ :: s.mp_person }) ∧
    (∀ e, (handleCreatePerson req s).1 = .error e →
      (handleCreatePerson req s).2 = s) := by
  constructor
  · intro i s' h
    exact handleCreatePerson_ok_inv req s i s' h
  · intro e h
    exact handleCreatePerson_error_frame req s e h

/-- C2 witness: a concrete successful run on the empty database produces
exactly the three rows, and a concrete failing run (an `mp_agent` row
already occupying the generated id makes the second insert fail) leaves
the state untouched. -/
theorem C2_create_person_atomic_witness :
    (0 = initialState.nextId ∧
      personInsertedState ⟨["n"], ["c"], ["f"], ["l"], ["p"]⟩ initialState =
        { initialState with
          nextId := initialState.nextId + 1
          mp_res := ⟨initialState.nextId, .person, ["n"], initialState.clock,
            none⟩ :: initialState.mp_res
          mp_agent := ⟨initialState.nextId, ["c"], ["f"], ["l"]⟩ ::
            initialState.mp_agent
          mp_person := ⟨initialState.nextId, ["p"]⟩ :: initialState.mp_person }) ∧
    (handleCreatePerson ⟨["n"], ["c"], ["f"], ["l"], ["p"]⟩
        { initialState with mp_agent := [⟨0, [], [], []⟩] }).2 =
      { initialState with mp_agent := [⟨0, [], [], []⟩] } :=
  ⟨(C2_create_person_atomic ⟨["n"], ["c"], ["f"], ["l"], ["p"]⟩ initialState).1
      0 (personInsertedState ⟨["n"], ["c"], ["f"], ["l"], ["p"]⟩ initialState)
      rfl,
   (C2_create_person_atomic ⟨["n"], ["c"], ["f"], ["l"], ["p"]⟩
      { initialState with mp_agent := [⟨0, [], [], []⟩] }).2
      .pkViolation rfl⟩

/-! ### C3 — NotFound versus CorruptEntity -/

/-- A data-integrity-violating state: the `mp_res` row for id 5 exists
with discriminator `person`, but both expected layer rows (`mp_agent`,
`mp_person`) are missing. -/
def corruptStateC3 : DBState :=
  { nextId := 6, clock := 0,
    mp_res := [⟨5, .person, [], 0, none⟩],
    mp_agent := [], mp_person := [], mp_work := [], mp_relationship := [] }

/-- C3 counterexample: the claim says that when the Resource row exists but
an expected layer row is missing, the read fails with a distinct
`CorruptEntity` error rather than `NotFound`.  In the code, `GetPerson`'s
inner joins return no row in that situation and `handleGetPerson` maps the
empty result to the same 404 `notFound` used for an absent id — there is
no `CorruptEntity` outcome at all (the handler's result type has only `ok`
and `notFound`). -/
theorem C3_corrupt_entity_counterexample :
    resExists 5 corruptStateC3 = true ∧
    handleGetPerson 5 corruptStateC3 = .notFound := by decide

/-- C3 amended: `handleGetPerson` fails with `notFound` both when no
Resource row exists for the id and when the Resource row exists but the
`mp_agent` or `mp_person` layer row is missing; the two failure modes are
not distinguished and no `CorruptEntity` error exists. -/
theorem C3_not_found_collapsed (s : DBState) (i : Nat) :
    (resFind i s = none → handleGetPerson i s = .notFound) ∧
    (agentFind i s = none ∨ personFind i s = none →
      handleGetPerson i s = .notFound) := by
  constructor
  · intro h
    simp [handleGetPerson, getPerson, h, Option.bind]
  · intro h
    rcases h with h | h
    · cases hr : resFind i s <;>
        simp [handleGetPerson, getPerson, hr, h, Option.bind]
    · cases hr : resFind i s <;> cases ha : agentFind i s <;>
        simp [handleGetPerson, getPerson, hr, ha, h, Option.bind]

/-- C3 witness: the amended theorem applied at the corrupt state (layer
missing) and at an id with no root row. -/
theorem C3_not_found_collapsed_witness :
    handleGetPerson 5 corruptStateC3 = .notFound ∧
    handleGetPerson 7 corruptStateC3 = .notFound :=
  ⟨(C3_not_found_collapsed corruptStateC3 5).2 (Or.inl rfl),
   (C3_not_found_collapsed corruptStateC3 7).1 rfl⟩

/-! ### C4 — create/get round-trip preserves supplied attributes -/

/-- C4: for the kinds whose full create-and-read path the repository
implements (person and work): whenever the creation transaction succeeds
with id `i`, reading `i` back returns exactly the supplied attributes and
the created kind — `getPerson` yields kind `person` with the supplied
note, contact_info, field_of_activity, language and profession, and
`getWork` yields kind `work` with the supplied note, category and
representative_attributes; moreover creation does succeed whenever the
generated identity is fresh for the tables it touches. -/
theorem C4_create_get_roundtrip :
    (∀ req s i s', handleCreatePerson req s = (.ok i, s') →
      getPerson i s' = some ⟨i, .person, req.note, s.clock, none,
        req.contact_info, req.field_of_activity, req.language,
        req.profession⟩) ∧
    (∀ req s i s', handleCreateWork req s = (.ok i, s') →
      getWork i s' = some ⟨i, .work, req.note, s.clock, req.category,
        req.representative_attributes⟩) ∧
    (∀ (req : CreatePersonRequest) (s : DBState),
      s.mp_res.any (fun r => r.id == s.nextId) = false →
      s.mp_agent.any (fun a => a.id == s.nextId) = false →
      s.mp_person.any (fun p => p.id == s.nextId) = false →
      (handleCreatePerson req s).1 = .ok s.nextId) ∧
    (∀ (req : CreateWorkRequest) (s : DBState),
      s.mp_res.any (fun r => r.id == s.nextId) = false →
      s.mp_work.any (fun w0 => w0.id == s.nextId) = false →
      (handleCreateWork req s).1 = .ok s.nextId) := by
  refine ⟨?_, ?_, ?_, ?_⟩
  · intro req s i s' h
    obtain ⟨hi, hs⟩ := handleCreatePerson_ok_inv req s i s' h
    subst hi; subst hs
    simp [getPerson, resFind, agentFind, personFind, personInsertedState,
      Option.bind]
  · intro req s i s' h
    obtain ⟨hi, hs⟩ := handleCreateWork_ok_inv req s i s' h
    subst hi; subst hs
    simp [getWork, resFind, workFind, workInsertedState, Option.bind]
  · intro req s h1 h2 h3
    rw [handleCreatePerson_fresh_ok req s h1 h2 h3]
  · intro req s h1 h2
    rw [handleCreateWork_fresh_ok req s h1 h2]

/-- C4 witness: concrete person and work creations on the empty database,
read back with exactly the supplied attributes. -/
theorem C4_create_get_roundtrip_witness :
    getPerson 0 (personInsertedState ⟨["n"], ["c"], ["f"], ["l"], ["p"]⟩
        initialState) =
      some ⟨0, .person, ["n"], 0, none, ["c"], ["f"], ["l"], ["p"]⟩ ∧
    getWork 0 (workInsertedState ⟨["wn"], ["manga"], some "ra"⟩ initialState) =
      some ⟨0, .work, ["wn"], 0, ["manga"], some "ra"⟩ ∧
    (handleCreatePerson ⟨["n"], ["c"], ["f"], ["l"], ["p"]⟩ initialState).1 =
      .ok 0 ∧
    (handleCreateWork ⟨["wn"], ["manga"], some "ra"⟩ initialState).1 = .ok 0 :=
  ⟨C4_create_get_roundtrip.1 ⟨["n"], ["c"], ["f"], ["l"], ["p"]⟩ initialState 0 _
      rfl,
   C4_create_get_roundtrip.2.1 ⟨["wn"], ["manga"], some "ra"⟩ initialState 0 _
      rfl,
   C4_create_get_roundtrip.2.2.1 ⟨["n"], ["c"], ["f"], ["l"], ["p"]⟩
      initialState rfl rfl rfl,
   C4_create_get_roundtrip.2.2.2 ⟨["wn"], ["manga"], some "ra"⟩ initialState
      rfl rfl⟩

/-! ### C1 — endpoint-kind validation -/

/-- A database holding one person (id 0) and one work (id 1). -/
def personWorkState : DBState :=
  { nextId := 2, clock := 0,
    mp_res := [⟨0, .person, [], 0, none⟩, ⟨1, .work, [], 0, none⟩],
    mp_agent := [⟨0, [], [], []⟩], mp_person := [⟨0, []⟩],
    mp_work := [⟨1, [], none⟩], mp_relationship := [] }

/-- C1: for every relationship kind, `CreateRelationship` on endpoints
whose resolved concrete kinds are not compatible with the registry's
permitted (source-kind, target-kind) pair fails with `TypeMismatch` and
leaves the database unchanged (no edge row); in particular `MP_R5` ("Work
was created by Agent") with the endpoints reversed — source a person,
target a work — fails with `TypeMismatch` and outbound traversal from the
source afterwards sees exactly what it saw before. -/
theorem C1_type_mismatch_blocks_insert :
    (∀ s a b relType note rowS rowT,
      resFind a s = some rowS → resFind b s = some rowT →
      ¬(kindIsA rowS.entity_type (allowedEndpointKinds relType).1 = true ∧
        kindIsA rowT.entity_type (allowedEndpointKinds relType).2 = true) →
      createRelationship a b relType note s = (.error .typeMismatch, s)) ∧
    (∀ s a b note rowS rowT,
      resFind a s = some rowS → resFind b s = some rowT →
      rowS.entity_type = .person → rowT.entity_type = .work →
      createRelationship a b .MP_R5 note s = (.error .typeMismatch, s) ∧
      traverse a .MP_R5 .outbound (createRelationship a b .MP_R5 note s).2 =
        traverse a .MP_R5 .outbound s) := by
  have hA : ∀ (s : DBState) (a b : Nat) (relType : MpRelationshipType)
      (note : Option String) (rowS : MpResRow) (rowT : MpResRow),
      resFind a s = some rowS → resFind b s = some rowT →
      ¬(kindIsA rowS.entity_type (allowedEndpointKinds relType).1 = true ∧
        kindIsA rowT.entity_type (allowedEndpointKinds relType).2 = true) →
      createRelationship a b relType note s = (.error .typeMismatch, s) := by
    intro s a b relType note rowS rowT hS hT hmis
    simp only [createRelationship, hS, hT]
    rw [if_neg]
    intro hand
    exact hmis (Bool.and_eq_true _ _ |>.mp hand)
  refine ⟨hA, ?_⟩
  intro s a b note rowS rowT hS hT hks hkt
  have h := hA s a b .MP_R5 note rowS rowT hS hT (by rw [hks, hkt]; decide)
  exact ⟨h, by rw [h]⟩

/-- C1 witness: on a database with a person (id 0) and a work (id 1), the
reversed `MP_R5` creation fails with `TypeMismatch`, inserts nothing, and
traversal is unchanged. -/
theorem C1_type_mismatch_blocks_insert_witness :
    createRelationship 0 1 .MP_R5 none personWorkState =
      (.error .typeMismatch, personWorkState) ∧
    traverse 0 .MP_R5 .outbound
        (createRelationship 0 1 .MP_R5 none personWorkState).2 =
      traverse 0 .MP_R5 .outbound personWorkState :=
  C1_type_mismatch_blocks_insert.2 personWorkState 0 1 none
    ⟨0, .person, [], 0, none⟩ ⟨1, .work, [], 0, none⟩ rfl rfl rfl rfl

/-! ### C7 — invariant I3: edges reference existing Resources -/

theorem sqlCreateRelationship_ok_inv (src tgt : Nat)
    (relType : MpRelationshipType) (note : Option String) (s : DBState)
    (i : Nat) (s' : DBState)
    (h : sqlCreateRelationship src tgt relType note s = .ok (i, s')) :
    i = s.nextId ∧ resExists src s = true ∧ resExists tgt s = true ∧
    s' = { s with
      mp_relationship :=
        ⟨s.nextId, src, tgt, relType, none, none, note⟩ :: s.mp_relationship
      nextId := s.nextId + 1 } := by
  by_cases h1 : s.mp_relationship.any (fun e => e.id == s.nextId) = true
  · simp [sqlCreateRelationship, h1] at h
  · by_cases h2 : resExists src s = true
    · by_cases h3 : resExists tgt s = true
      · simp [sqlCreateRelationship, h1, h2, h3] at h
        exact ⟨h.1.symm, h2, h3, h.2.symm⟩
      · simp [sqlCreateRelationship, h1, h2, h3] at h
    · simp [sqlCreateRelationship, h1, h2] at h

theorem resExists_personInserted (req : CreatePersonRequest) (s : DBState)
    (x : Nat) (hx : resExists x s = true) :
    resExists x (personInsertedState req s) = true := by
  simp only [personInsertedState, resExists, List.any_cons]
  rw [resExists] at hx
  simp [hx]

theorem resExists_workInserted (req : CreateWorkRequest) (s : DBState)
    (x : Nat) (hx : resExists x s = true) :
    resExists x (workInsertedState req s) = true := by
  simp only [workInsertedState, resExists, List.any_cons]
  rw [resExists] at hx
  simp [hx]

theorem edgesValid_handleCreatePerson (req : CreatePersonRequest)
    (s : DBState) (h : edgesValid s) :
    edgesValid (handleCreatePerson req s).2 := by
  rcases hc : handleCreatePerson req s with ⟨r, s'⟩
  cases r with
  | error e =>
    have h2 := handleCreatePerson_error_frame req s e (by rw [hc])
    rw [hc] at h2
    exact (show s = s' from h2.symm) ▸ h
  | ok i =>
    obtain ⟨hi, hs⟩ := handleCreatePerson_ok_inv req s i s' hc
    subst hs
    intro e he
    simp only [personInsertedState] at he
    obtain ⟨h1, h2⟩ := h e he
    exact ⟨resExists_personInserted req s _ h1, resExists_personInserted req s _ h2⟩

theorem edgesValid_handleCreateWork (req : CreateWorkRequest)
    (s : DBState) (h : edgesValid s) :
    edgesValid (handleCreateWork req s).2 := by
  rcases hc : handleCreateWork req s with ⟨r, s'⟩
  cases r with
  | error e =>
    have h2 := handleCreateWork_error_frame req s e (by rw [hc])
    rw [hc] at h2
    exact (show s = s' from h2.symm) ▸ h
  | ok i =>
    obtain ⟨hi, hs⟩ := handleCreateWork_ok_inv req s i s' hc
    subst hs
    intro e he
    simp only [workInsertedState] at he
    obtain ⟨h1, h2⟩ := h e he
    exact ⟨resExists_workInserted req s _ h1, resExists_workInserted req s _ h2⟩

theorem edgesValid_createRelationship (a b : Nat)
    (relType : MpRelationshipType) (note : Option String) (s : DBState)
    (h : edgesValid s) : edgesValid (createRelationship a b relType note s).2 := by
  cases hS : resFind a s with
  | none => simpa [createRelationship, hS] using h
  | some rowS =>
    cases hT : resFind b s with
    | none => simpa [createRelationship, hS, hT] using h
    | some rowT =>
      by_cases hk : (kindIsA rowS.entity_type (allowedEndpointKinds relType).1 &&
          kindIsA rowT.entity_type (allowedEndpointKinds relType).2) = true
      · cases hins : sqlCreateRelationship a b relType note s with
        | error e => simpa [createRelationship, hS, hT, hk, hins] using h
        | ok v =>
          rcases v with ⟨i, s'⟩
          obtain ⟨hi, hsrc, htgt, hst⟩ :=
            sqlCreateRelationship_ok_inv a b relType note s i s' hins
          have hgoal : (createRelationship a b relType note s).2 = s' := by
            simp [createRelationship, hS, hT, hk, hins]
          rw [hgoal, hst]
          intro e he
          simp only [List.mem_cons] at he
          rcases he with he | he
          · subst he
            exact ⟨hsrc, htgt⟩
          · exact h e he
      · simpa [createRelationship, hS, hT, hk] using h

theorem resExists_deleteEntity (i x : Nat) (s : DBState)
    (hx : resExists x s = true) (hxi : x ≠ i) :
    resExists x (deleteEntity i s) = true := by
  simp only [resExists, List.any_eq_true, beq_iff_eq] at hx
  obtain ⟨r, hr, hid⟩ := hx
  simp only [deleteEntity, resExists, List.any_eq_true, List.mem_filter,
    beq_iff_eq, bne_iff_ne]
  exact ⟨r, ⟨hr, hid ▸ hxi⟩, hid⟩

theorem edgesValid_deleteEntity (i : Nat) (s : DBState) (h : edgesValid s) :
    edgesValid (deleteEntity i s) := by
  intro e he
  have hmem : e ∈ s.mp_relationship ∧
      ((e.source_id != i) = true ∧ (e.target_id != i) = true) := by
    simpa [deleteEntity, List.mem_filter, Bool.and_eq_true] using he
  obtain ⟨hm, hs1, hs2⟩ := hmem
  obtain ⟨h1, h2⟩ := h e hm
  exact ⟨resExists_deleteEntity i _ s h1 (bne_iff_ne.mp hs1),
    resExists_deleteEntity i _ s h2 (bne_iff_ne.mp hs2)⟩

theorem edgesValid_deleteRelationship (i : Nat) (s : DBState)
    (h : edgesValid s) : edgesValid (deleteRelationship i s).2 := by
  by_cases hc : s.mp_relationship.any (fun e => e.id == i) = true
  · simp only [deleteRelationship, hc, if_pos]
    intro e he
    simp only [List.mem_filter] at he
    exact h e he.1
  · simpa [deleteRelationship, hc] using h

theorem resExists_updateResNote (i x : Nat) (nt : List String) (s : DBState)
    (hx : resExists x s = true) : resExists x (updateResNote i nt s) = true := by
  simp only [resExists, List.any_eq_true, beq_iff_eq] at hx
  obtain ⟨r, hr, hid⟩ := hx
  simp only [updateResNote, resExists, List.any_eq_true, List.mem_map,
    beq_iff_eq]
  refine ⟨_, ⟨r, hr, rfl⟩, ?_⟩
  split <;> simp [hid]

theorem edgesValid_updateResNote (i : Nat) (nt : List String) (s : DBState)
    (h : edgesValid s) : edgesValid (updateResNote i nt s) := by
  intro e he
  simp only [updateResNote] at he
  obtain ⟨h1, h2⟩ := h e he
  exact ⟨resExists_updateResNote i _ nt s h1, resExists_updateResNote i _ nt s h2⟩

/-- C7: both endpoints of every edge reference existing Resources
(invariant I3): `CreateRelationship` with an absent source or target fails
with `EndpointNotFound` and changes nothing, and every state reachable
from the empty database through the modelled operations satisfies
`edgesValid` — no edge whose source or target lacks a `mp_res` row. -/
theorem C7_edge_endpoints_exist :
    (∀ s a b relType note,
      resFind a s = none ∨ resFind b s = none →
      createRelationship a b relType note s = (.error .endpointNotFound, s)) ∧
    (∀ s, Reachable s → edgesValid s) := by
  constructor
  · intro s a b relType note h
    rcases h with h | h
    · simp [createRelationship, h]
    · cases hS : resFind a s with
      | none => simp [createRelationship, hS]
      | some rowS => simp [createRelationship, hS, h]
  · intro s h
    induction h with
    | init => intro e he; simp [initialState] at he
    | createPersonStep req s hr ih => exact edgesValid_handleCreatePerson req s ih
    | createWorkStep req s hr ih => exact edgesValid_handleCreateWork req s ih
    | createRelStep a b relType note s hr ih =>
      exact edgesValid_createRelationship a b relType note s ih
    | deleteEntityStep i s hr ih => exact edgesValid_deleteEntity i s ih
    | deleteRelStep i s hr ih => exact edgesValid_deleteRelationship i s ih
    | updateNoteStep i nt s hr ih => exact edgesValid_updateResNote i nt s ih

/-- C7 witness: on the empty (reachable) database, creating an edge between
two absent ids fails with `EndpointNotFound` and leaves the state
unchanged, and the invariant holds there. -/
theorem C7_edge_endpoints_exist_witness :
    createRelationship 0 1 .MP_R5 none initialState =
      (.error .endpointNotFound, initialState) ∧
    edgesValid initialState :=
  ⟨C7_edge_endpoints_exist.1 initialState 0 1 .MP_R5 none (Or.inl rfl),
   C7_edge_endpoints_exist.2 initialState Reachable.init⟩

/-! ### C5 — deletion cascades through layers and edges -/

/-- C5: after `DeleteEntity(id)` removes the `mp_res` row, reading the id
fails with `notFound`, every layer row for the id is removed (the
`mp_person` row through the two-level `mp_agent` cascade, given the
states' foreign-key discipline), every edge referencing the id as source
or target is removed, and no traversal — from any anchor, for any
relationship kind, in either direction — can return the id. -/
theorem C5_delete_entity_cascades (s : DBState) (i : Nat) :
    handleGetPerson i (deleteEntity i s) = .notFound ∧
    getWork i (deleteEntity i s) = none ∧
    resFind i (deleteEntity i s) = none ∧
    agentFind i (deleteEntity i s) = none ∧
    workFind i (deleteEntity i s) = none ∧
    ((∀ p ∈ s.mp_person, ∃ a ∈ s.mp_agent, a.id = p.id) →
      personFind i (deleteEntity i s) = none) ∧
    (∀ e ∈ (deleteEntity i s).mp_relationship,
      e.source_id ≠ i ∧ e.target_id ≠ i) ∧
    (∀ anchor relType d, i ∉ traverse anchor relType d (deleteEntity i s)) ∧
    (∀ relType d, traverse i relType d (deleteEntity i s) = []) := by
  have hres : resFind i (deleteEntity i s) = none := by
    rw [resFind, List.find?_eq_none]
    intro x hx
    simp only [deleteEntity, List.mem_filter, bne_iff_ne] at hx
    simp [hx.2]
  have hagent : agentFind i (deleteEntity i s) = none := by
    rw [agentFind, List.find?_eq_none]
    intro x hx
    simp only [deleteEntity, List.mem_filter, bne_iff_ne] at hx
    simp [hx.2]
  have hwork : workFind i (deleteEntity i s) = none := by
    rw [workFind, List.find?_eq_none]
    intro x hx
    simp only [deleteEntity, List.mem_filter, bne_iff_ne] at hx
    simp [hx.2]
  have hedges : ∀ e ∈ (deleteEntity i s).mp_relationship,
      e.source_id ≠ i ∧ e.target_id ≠ i := by
    intro e he
    simp only [deleteEntity, List.mem_filter, Bool.and_eq_true, bne_iff_ne] at he
    exact he.2
  refine ⟨?_, ?_, hres, hagent, hwork, ?_, hedges, ?_, ?_⟩
  · simp [handleGetPerson, getPerson, hres, Option.bind]
  · simp [getWork, hres, Option.bind]
  · intro hwf
    rw [personFind, List.find?_eq_none]
    intro p hp
    simp only [deleteEntity, List.mem_filter] at hp
    obtain ⟨hpm, hpc⟩ := hp
    intro hpid
    have hpid' : p.id = i := by simpa using hpid
    obtain ⟨a, ha, haid⟩ := hwf p hpm
    have hmem : p.id ∈ (s.mp_agent.filter (fun a => a.id == i)).map (·.id) := by
      refine List.mem_map.mpr ⟨a, List.mem_filter.mpr ⟨ha, ?_⟩, ?_⟩
      · simp [haid, hpid']
      · rw [haid]
    have hcont : ((s.mp_agent.filter (fun a => a.id == i)).map
        (·.id)).contains p.id = true := List.elem_iff.mpr hmem
    rw [Bool.not_eq_true'] at hpc
    exact (by decide : (true : Bool) ≠ false) (hcont.symm.trans hpc)
  · intro anchor relType d hmem
    cases d with
    | outbound =>
      simp only [traverse, List.mem_map, List.mem_filter] at hmem
      obtain ⟨e, ⟨he, _⟩, heq⟩ := hmem
      exact (hedges e he).2 heq
    | inbound =>
      simp only [traverse, List.mem_map, List.mem_filter] at hmem
      obtain ⟨e, ⟨he, _⟩, heq⟩ := hmem
      exact (hedges e he).1 heq
  · intro relType d
    cases d with
    | outbound =>
      have hnil : (deleteEntity i s).mp_relationship.filter
          (fun e => e.source_id == i && e.rel_type == relType) = [] := by
        rw [List.filter_eq_nil_iff]
        intro e he hc
        rw [Bool.and_eq_true] at hc
        exact (hedges e he).1 (by simpa using hc.1)
      simp [traverse, hnil]
    | inbound =>
      have hnil : (deleteEntity i s).mp_relationship.filter
          (fun e => e.target_id == i && e.rel_type == relType) = [] := by
        rw [List.filter_eq_nil_iff]
        intro e he hc
        rw [Bool.and_eq_true] at hc
        exact (hedges e he).2 (by simpa using hc.1)
      simp [traverse, hnil]

/-- C5 witness: deleting the person (id 0) of the concrete two-entity
database makes the read return `notFound` and removes the `mp_person`
layer row (the foreign-key discipline hypothesis holds there). -/
theorem C5_delete_entity_cascades_witness :
    handleGetPerson 0 (deleteEntity 0 personWorkState) = .notFound ∧
    personFind 0 (deleteEntity 0 personWorkState) = none :=
  ⟨(C5_delete_entity_cascades personWorkState 0).1,
   (C5_delete_entity_cascades personWorkState 0).2.2.2.2.2.1 (by decide)⟩

/-! ### C6 — listing order and pagination -/

/-- Two persons sharing one creation timestamp, root rows in one order. -/
def listStateA : DBState :=
  { nextId := 2, clock := 1,
    mp_res := [⟨0, .person, [], 0, none⟩, ⟨1, .person, [], 0, none⟩],
    mp_agent := [⟨0, [], [], []⟩, ⟨1, [], [], []⟩],
    mp_person := [⟨0, []⟩, ⟨1, []⟩], mp_work := [], mp_relationship := [] }

/-- The same database content with the two root rows in the other order. -/
def listStateB : DBState :=
  { nextId := 2, clock := 1,
    mp_res := [⟨1, .person, [], 0, none⟩, ⟨0, .person, [], 0, none⟩],
    mp_agent := [⟨0, [], [], []⟩, ⟨1, [], [], []⟩],
    mp_person := [⟨0, []⟩, ⟨1, []⟩], mp_work := [], mp_relationship := [] }

/-- C6 counterexample: the claim says entities sharing a creation
timestamp are ordered deterministically through a (createdAt, id) cursor.
`ListPeople` orders by `created_at DESC` alone — no id tie-break, no
cursor parameter, no LIMIT — so two databases holding the same root rows
(a permutation, all with the same `created_at`) list them in different
orders. -/
theorem C6_list_cursor_counterexample :
    listStateA.mp_res.Perm listStateB.mp_res ∧
    listStateA.mp_agent = listStateB.mp_agent ∧
    listStateA.mp_person = listStateB.mp_person ∧
    (∀ r ∈ listStateA.mp_res, r.created_at = 0) ∧
    listPeople listStateA ≠ listPeople listStateB := by decide

/-- C6 amended: `ListPeople` and `ListWorks` return the entire join result
in one shot (a permutation of it — no page, no cursor), ordered by
creation time descending; rows sharing a creation timestamp have no
specified relative order. -/
theorem C6_list_ordered_by_creation :
    (∀ s : DBState, (listPeople s).Sorted createdDescP ∧
      (listPeople s).Perm (joinPeople s)) ∧
    (∀ s : DBState, (listWorks s).Sorted createdDescW ∧
      (listWorks s).Perm (joinWorks s)) :=
  ⟨fun _ => ⟨List.sorted_insertionSort _ _, List.perm_insertionSort _ _⟩,
   fun _ => ⟨List.sorted_insertionSort _ _, List.perm_insertionSort _ _⟩⟩

/-! ### C8 — duplicate relationships are not deduplicated -/

theorem resExists_of_resFind (i : Nat) (s : DBState) (r : MpResRow)
    (h : resFind i s = some r) : resExists i s = true := by
  have hm := List.mem_of_find?_eq_some h
  have hp := List.find?_some h
  simp only [resExists, List.any_eq_true]
  exact ⟨r, hm, hp⟩

theorem createRelationship_valid_ok (a b : Nat)
    (relType : MpRelationshipType) (note : Option String) (s : DBState)
    (rowS rowT : MpResRow)
    (hS : resFind a s = some rowS) (hT : resFind b s = some rowT)
    (hk1 : kindIsA rowS.entity_type (allowedEndpointKinds relType).1 = true)
    (hk2 : kindIsA rowT.entity_type (allowedEndpointKinds relType).2 = true)
    (hpk : s.mp_relationship.any (fun e => e.id == s.nextId) = false) :
    createRelationship a b relType note s =
      (.ok s.nextId,
        { s with
          mp_relationship :=
            ⟨s.nextId, a, b, relType, none, none, note⟩ :: s.mp_relationship
          nextId := s.nextId + 1 }) := by
  have hsrc := resExists_of_resFind a s rowS hS
  have htgt := resExists_of_resFind b s rowT hT
  simp [createRelationship, hS, hT, hk1, hk2, sqlCreateRelationship, hpk,
    hsrc, htgt]

/-- C8: relationship creation is not deduplicated by content — on any
database holding both endpoints with kinds permitted for the relationship
kind (and the generated edge ids free, as `uuid_generate_v4` guarantees),
calling `CreateRelationship` twice with identical arguments succeeds both
times and the final state holds two edges with identical content but
distinct identities. -/
theorem C8_duplicate_edges_distinct (s : DBState) (a b : Nat)
    (relType : MpRelationshipType) (note : Option String)
    (rowS rowT : MpResRow)
    (hS : resFind a s = some rowS) (hT : resFind b s = some rowT)
    (hk1 : kindIsA rowS.entity_type (allowedEndpointKinds relType).1 = true)
    (hk2 : kindIsA rowT.entity_type (allowedEndpointKinds relType).2 = true)
    (hpk1 : s.mp_relationship.any (fun e => e.id == s.nextId) = false)
    (hpk2 : s.mp_relationship.any (fun e => e.id == s.nextId + 1) = false) :
    ∃ s1 s2 : DBState,
      createRelationship a b relType note s = (.ok s.nextId, s1) ∧
      createRelationship a b relType note s1 = (.ok (s.nextId + 1), s2) ∧
      s.nextId ≠ s.nextId + 1 ∧
      (∃ e1 ∈ s2.mp_relationship, e1.id = s.nextId ∧ e1.source_id = a ∧
        e1.target_id = b ∧ e1.rel_type = relType) ∧
      (∃ e2 ∈ s2.mp_relationship, e2.id = s.nextId + 1 ∧ e2.source_id = a ∧
        e2.target_id = b ∧ e2.rel_type = relType) := by
  have h1 := createRelationship_valid_ok a b relType note s rowS rowT hS hT
    hk1 hk2 hpk1
  have hpk2' : (({ s with
      mp_relationship :=
        ⟨s.nextId, a, b, relType, none, none, note⟩ :: s.mp_relationship
      nextId := s.nextId + 1 } : DBState)).mp_relationship.any
        (fun e => e.id == ({ s with
          mp_relationship :=
            ⟨s.nextId, a, b, relType, none, none, note⟩ :: s.mp_relationship
          nextId := s.nextId + 1 } : DBState).nextId) = false := by
    simp only [List.any_cons]
    have hne : (s.nextId == s.nextId + 1) = false := by
      simp [Nat.ne_of_lt (Nat.lt_succ_self s.nextId)]
    rw [hne, Bool.false_or]
    exact hpk2
  have h2 := createRelationship_valid_ok a b relType note
    { s with
      mp_relationship :=
        ⟨s.nextId, a, b, relType, none, none, note⟩ :: s.mp_relationship
      nextId := s.nextId + 1 }
    rowS rowT hS hT hk1 hk2 hpk2'
  refine ⟨_, _, h1, h2, Nat.ne_of_lt (Nat.lt_succ_self _), ?_, ?_⟩
  · exact ⟨⟨s.nextId, a, b, relType, none, none, note⟩,
      List.mem_cons_of_mem _ (List.mem_cons_self _ _), rfl, rfl, rfl, rfl⟩
  · exact ⟨⟨s.nextId + 1, a, b, relType, none, none, note⟩,
      List.mem_cons_self _ _, rfl, rfl, rfl, rfl⟩

/-- C8 witness: creating the `MP_R5` edge from the work (id 1) to the
person (id 0) twice on the concrete two-entity database succeeds twice and
yields two edges with ids 2 and 3. -/
theorem C8_duplicate_edges_distinct_witness :
    ∃ s1 s2 : DBState,
      createRelationship 1 0 .MP_R5 none personWorkState = (.ok 2, s1) ∧
      createRelationship 1 0 .MP_R5 none s1 = (.ok 3, s2) ∧
      (2 : Nat) ≠ 3 ∧
      (∃ e1 ∈ s2.mp_relationship, e1.id = 2 ∧ e1.source_id = 1 ∧
        e1.target_id = 0 ∧ e1.rel_type = .MP_R5) ∧
      (∃ e2 ∈ s2.mp_relationship, e2.id = 3 ∧ e2.source_id = 1 ∧
        e2.target_id = 0 ∧ e2.rel_type = .MP_R5) :=
  C8_duplicate_edges_distinct personWorkState 1 0 .MP_R5 none
    ⟨1, .work, [], 0, none⟩ ⟨0, .person, [], 0, none⟩ rfl rfl rfl rfl rfl rfl

/-! ### C9 — creation never sets `updated_at`; mutation does -/

theorem createRelationship_res_frame (a b : Nat)
    (relType : MpRelationshipType) (note : Option String) (s : DBState) :
    ((createRelationship a b relType note s).2).mp_res = s.mp_res := by
  cases hS : resFind a s with
  | none => simp [createRelationship, hS]
  | some rowS =>
    cases hT : resFind b s with
    | none => simp [createRelationship, hS, hT]
    | some rowT =>
      by_cases hk : (kindIsA rowS.entity_type (allowedEndpointKinds relType).1 &&
          kindIsA rowT.entity_type (allowedEndpointKinds relType).2) = true
      · cases hins : sqlCreateRelationship a b relType note s with
        | error e => simp [createRelationship, hS, hT, hk, hins]
        | ok v =>
          rcases v with ⟨i, s'⟩
          obtain ⟨_, _, _, hst⟩ :=
            sqlCreateRelationship_ok_inv a b relType note s i s' hins
          simp [createRelationship, hS, hT, hk, hins, hst]
      · simp [createRelationship, hS, hT, hk]

/-- C9: a freshly created Resource row carries `created_at = now()` and
`updated_at = NULL` — every root row present after a create (person, work
or relationship) is either an old row or has `updated_at` absent — while
an attribute mutation is the one operation that sets `updated_at` (to the
mutation's `now()`), via the schema's BEFORE UPDATE trigger, leaving every
other row untouched. -/
theorem C9_updated_at_only_on_mutation (s : DBState) :
    (∀ (req : CreatePersonRequest) (r : MpResRow),
      r ∈ ((handleCreatePerson req s).2).mp_res →
      r ∈ s.mp_res ∨ (r.created_at = s.clock ∧ r.updated_at = none)) ∧
    (∀ (req : CreateWorkRequest) (r : MpResRow),
      r ∈ ((handleCreateWork req s).2).mp_res →
      r ∈ s.mp_res ∨ (r.created_at = s.clock ∧ r.updated_at = none)) ∧
    (∀ (a b : Nat) (relType : MpRelationshipType) (note : Option String)
      (r : MpResRow),
      r ∈ ((createRelationship a b relType note s).2).mp_res →
      r ∈ s.mp_res) ∧
    (∀ (i : Nat) (nt : List String) (r : MpResRow),
      r ∈ (updateResNote i nt s).mp_res →
      (r.id ≠ i → r ∈ s.mp_res) ∧ (r.id = i → r.updated_at = some s.clock)) := by
  refine ⟨?_, ?_, ?_, ?_⟩
  · intro req r hr
    rcases hc : handleCreatePerson req s with ⟨r0, s'⟩
    rw [hc] at hr
    cases r0 with
    | error e =>
      have h2 := handleCreatePerson_error_frame req s e (by rw [hc])
      rw [hc] at h2
      exact Or.inl ((show s = s' from h2.symm) ▸ hr)
    | ok i =>
      obtain ⟨hi, hs⟩ := handleCreatePerson_ok_inv req s i s' hc
      subst hs
      simp only [personInsertedState, List.mem_cons] at hr
      rcases hr with hr | hr
      · subst hr
        exact Or.inr ⟨rfl, rfl⟩
      · exact Or.inl hr
  · intro req r hr
    rcases hc : handleCreateWork req s with ⟨r0, s'⟩
    rw [hc] at hr
    cases r0 with
    | error e =>
      have h2 := handleCreateWork_error_frame req s e (by rw [hc])
      rw [hc] at h2
      exact Or.inl ((show s = s' from h2.symm) ▸ hr)
    | ok i =>
      obtain ⟨hi, hs⟩ := handleCreateWork_ok_inv req s i s' hc
      subst hs
      simp only [workInsertedState, List.mem_cons] at hr
      rcases hr with hr | hr
      · subst hr
        exact Or.inr ⟨rfl, rfl⟩
      · exact Or.inl hr
  · intro a b relType note r hr
    rw [createRelationship_res_frame] at hr
    exact hr
  · intro i nt r hr
    simp only [updateResNote, List.mem_map] at hr
    obtain ⟨r0, hr0, hfr⟩ := hr
    subst hfr
    constructor
    · intro hne
      by_cases hid : (r0.id == i) = true
      · exfalso
        apply hne
        simp only [if_pos hid]
        exact beq_iff_eq.mp hid
      · simpa [hid] using hr0
    · intro heq
      by_cases hid : (r0.id == i) = true
      · simp [hid]
      · exfalso
        rw [if_neg hid] at heq
        exact hid (beq_iff_eq.mpr heq)

/-- C9 witness: creating a person on the concrete database leaves the old
rows alone and gives the new row `updated_at = NULL`; mutating the note of
row 0 stamps `updated_at` with the clock. -/
theorem C9_updated_at_only_on_mutation_witness :
    ((⟨2, .person, ["n"], 0, none⟩ : MpResRow) ∈ personWorkState.mp_res ∨
      ((⟨2, .person, ["n"], 0, none⟩ : MpResRow).created_at =
          personWorkState.clock ∧
        (⟨2, .person, ["n"], 0, none⟩ : MpResRow).updated_at = none)) ∧
    (((⟨0, .person, ["x"], 0, some 0⟩ : MpResRow).id ≠ 0 →
        (⟨0, .person, ["x"], 0, some 0⟩ : MpResRow) ∈ personWorkState.mp_res) ∧
      ((⟨0, .person, ["x"], 0, some 0⟩ : MpResRow).id = 0 →
        (⟨0, .person, ["x"], 0, some 0⟩ : MpResRow).updated_at =
          some personWorkState.clock)) :=
  ⟨(C9_updated_at_only_on_mutation personWorkState).1
      ⟨["n"], ["c"], ["f"], ["l"], ["p"]⟩ ⟨2, .person, ["n"], 0, none⟩
      (by decide),
   (C9_updated_at_only_on_mutation personWorkState).2.2.2 0 ["x"]
      ⟨0, .person, ["x"], 0, some 0⟩ (by decide)⟩

/-! ### C10 — the works-by-creator traversal -/

/-- A database where the only `MP_R5` edge targets agent 0 but its source
(id 0) is a person with no `mp_work` layer row. -/
def noWorkSourceState : DBState :=
  { nextId := 6, clock := 0,
    mp_res := [⟨0, .person, [], 0, none⟩],
    mp_agent := [⟨0, [], [], []⟩], mp_person := [⟨0, []⟩], mp_work := [],
    mp_relationship := [⟨5, 0, 0, .MP_R5, none, none, none⟩] }

/-- C10: `GetWorksByCreator` returns exactly the hydrations of those edges
whose `rel_type` is `MP_R5` and whose target is the given agent id and
whose source id has both a root row and an `mp_work` layer row; an `MP_R5`
edge whose source lacks the `mp_work` row contributes nothing and raises
no error (concretely, on a database whose only matching edge has a
work-less person as source, the result is the empty list). -/
theorem C10_works_by_creator_characterization :
    (∀ (s : DBState) (agentId : Nat) (w : WorkRecord),
      w ∈ getWorksByCreator agentId s ↔
        ∃ e ∈ s.mp_relationship, e.rel_type = .MP_R5 ∧ e.target_id = agentId ∧
          ∃ r w0, resFind e.source_id s = some r ∧
            workFind e.source_id s = some w0 ∧
            w = ⟨r.id, r.entity_type, r.note, r.created_at, w0.category,
              w0.representative_attributes⟩) ∧
    getWorksByCreator 0 noWorkSourceState = [] := by
  constructor
  · intro s agentId w
    simp only [getWorksByCreator, List.mem_filterMap]
    constructor
    · rintro ⟨e, he, hf⟩
      by_cases hc : (e.target_id == agentId &&
          e.rel_type == MpRelationshipType.MP_R5) = true
      · rw [if_pos hc] at hf
        rw [Bool.and_eq_true] at hc
        obtain ⟨h1, h2⟩ := hc
        cases hr : resFind e.source_id s with
        | none => rw [hr] at hf; simp [Option.bind] at hf
        | some r =>
          cases hw : workFind e.source_id s with
          | none => rw [hr, hw] at hf; simp [Option.bind] at hf
          | some w0 =>
            rw [hr, hw] at hf
            simp only [bind, Option.bind, pure, Option.some.injEq] at hf
            exact ⟨e, he, by simpa using h2, by simpa using h1, r, w0, hr,
              hw, hf.symm⟩
      · rw [if_neg hc] at hf
        exact Option.noConfusion hf
    · rintro ⟨e, he, h2, h1, r, w0, hr, hw, hweq⟩
      refine ⟨e, he, ?_⟩
      rw [if_pos (by simp [h1, h2])]
      rw [hr, hw]
      simp [Option.bind, hweq]
  · decide

end MangaParty
